import Mathlib

/-!
Verification of the budget app's client/cloud data-reconciliation logic and
local persistence layer, as implemented in `script.js` (the two app variants
concatenated in `src/unnamed/part_002`), `src/supabase-client.js` and
`src/script_backup.js`.

The JavaScript is shallowly embedded: JS records become Lean structures, the
dynamically typed collection values (a JS array of records versus a plain
object) become an explicit sum type, exceptions become `Except`, and the
`Date` values produced by `new Date(x)` become an explicit type with a `nan`
case (an Invalid Date), since every comparison against NaN is false in JS.
-/

/-- A primitive JS value as stored in a settings object field. -/
inductive JsVal where
  | str (s : String)
  | num (n : Int)
  | bool (b : Bool)
deriving DecidableEq, Repr

/-- The `timestamp` / `date` field of a record, as seen by
`new Date(item.timestamp || item.date || 0)`:
`absent` = the field is missing or falsy so `||` falls through;
`invalid` = the field is a truthy string that `Date` cannot parse (NaN);
`time t` = the field parses to the time value `t` (milliseconds). -/
inductive JsDateField where
  | absent
  | invalid
  | time (t : Int)
deriving DecidableEq, Repr

/-- One record of a synchronized array collection (a transaction, or any
record merged by `mergeArrayData`). `key` is the value of the natural-key
field (`id`, `category` or `name`); `payload` stands opaquely for all the
remaining fields, so two records are equal exactly when all their fields
are. -/
structure Item where
  key : String
  timestamp : JsDateField
  date : JsDateField
  payload : Nat
deriving DecidableEq, Repr

/-- The value of a JS `Date`: either a real time value or NaN. -/
inductive JsTime where
  | nan
  | val (t : Int)
deriving DecidableEq, Repr

/-- `new Date(item.timestamp || item.date || 0)` from `mergeArrayData`
(src/unnamed/part_002 lines 2904-2905): the `timestamp` field when it is
truthy, else the `date` field when truthy, else the epoch time 0. -/
def itemTime (item : Item) : JsTime :=
  match item.timestamp with
  | JsDateField.invalid => JsTime.nan
  | JsDateField.time t => JsTime.val t
  | JsDateField.absent =>
    match item.date with
    | JsDateField.invalid => JsTime.nan
    | JsDateField.time t => JsTime.val t
    | JsDateField.absent => JsTime.val 0

/-- JS `>` on two Date values: false whenever either side is NaN. -/
def jsGt : JsTime → JsTime → Bool
  | JsTime.val a, JsTime.val b => decide (b < a)
  | _, _ => false

/-- One iteration of the `cloudArray.forEach` loop of `mergeArrayData`
(src/unnamed/part_002 lines 2898-2912): a cloud item whose key is not among
the original local keys is pushed; otherwise the first record in `merged`
with that key is replaced by the cloud item exactly when the cloud item's
time is strictly later. -/
def mergeStep (localKeys : List String) (merged : List Item) (cloudItem : Item) :
    List Item :=
  if localKeys.contains cloudItem.key then
    let localIndex := merged.findIdx (fun item => item.key == cloudItem.key)
    match merged[localIndex]? with
    | some localItem =>
      if jsGt (itemTime cloudItem) (itemTime localItem) then
        merged.set localIndex cloudItem
      else merged
    | none => merged
  else
    merged ++ [cloudItem]

/-- `mergeArrayData(localArray, cloudArray, keyField)` from
src/unnamed/part_002 lines 2893-2916: start from a copy of the local array,
record the set of local keys once, then fold the cloud array through
`mergeStep`. -/
def mergeArrayData (localArray cloudArray : List Item) : List Item :=
  cloudArray.foldl (mergeStep (localArray.map Item.key)) localArray

/-- The spec's merge scenario: local t1 with day 1 and amount 20 against
cloud t1 with day 5 and amount 25 plus a new t2; the merge keeps the later
t1 and gains t2. -/
theorem mergeArrayData_spec_scenario :
    mergeArrayData
      [Item.mk "t1" JsDateField.absent (JsDateField.time 1) 20]
      [Item.mk "t1" JsDateField.absent (JsDateField.time 5) 25,
       Item.mk "t2" JsDateField.absent (JsDateField.time 2) 10]
      = [Item.mk "t1" JsDateField.absent (JsDateField.time 5) 25,
         Item.mk "t2" JsDateField.absent (JsDateField.time 2) 10] := by decide

/-! Helper lemmas about `mergeStep`: the key list is preserved (a conflict
replacement swaps in a record with the same key) or extended by the pushed
cloud key. -/

theorem getElem_findIdx_pred {α : Type} (p : α → Bool) (l : List α) (y : α)
    (h : l[l.findIdx p]? = some y) : p y = true := by
  induction l with
  | nil => simp at h
  | cons a t ih =>
    by_cases hp : p a
    · simp [List.findIdx_cons, hp] at h
      exact h ▸ hp
    · simp [List.findIdx_cons, hp] at h
      exact ih h

theorem map_set_key_eq (l : List Item) (i : Nat) (c y : Item)
    (h : l[i]? = some y) (hk : y.key = c.key) :
    (l.set i c).map Item.key = l.map Item.key := by
  induction l generalizing i with
  | nil => simp at h
  | cons a t ih =>
    cases i with
    | zero =>
      simp at h
      subst h
      simp [hk]
    | succ n =>
      simp at h
      simp [ih n h]

theorem mem_key_mergeStep (localKeys : List String) (acc : List Item) (c : Item)
    (k : String) (h : k ∈ acc.map Item.key) :
    k ∈ (mergeStep localKeys acc c).map Item.key := by
  unfold mergeStep
  cases hc : localKeys.contains c.key with
  | false => simp [h]
  | true =>
    simp only [cond_true]
    cases hm : acc[acc.findIdx (fun item => item.key == c.key)]? with
    | none => simpa [hm] using h
    | some localItem =>
      by_cases hgt : jsGt (itemTime c) (itemTime localItem)
      · have hkey : localItem.key = c.key := by
          have hp := getElem_findIdx_pred (fun item => item.key == c.key) acc localItem hm
          simpa using hp
        simpa [hm, hgt, map_set_key_eq acc _ c localItem hm hkey] using h
      · simpa [hm, hgt] using h

theorem mem_key_foldl_mergeStep (localKeys : List String) (cloudArray : List Item) :
    ∀ (acc : List Item) (k : String), k ∈ acc.map Item.key →
      k ∈ (cloudArray.foldl (mergeStep localKeys) acc).map Item.key := by
  induction cloudArray with
  | nil => intro acc k h; simpa using h
  | cons c rest ih =>
    intro acc k h
    exact ih (mergeStep localKeys acc c) k (mem_key_mergeStep localKeys acc c k h)

theorem cloudKey_mem_mergeStep (localKeys : List String) (acc : List Item) (c : Item)
    (hsub : ∀ s ∈ localKeys, s ∈ acc.map Item.key) :
    c.key ∈ (mergeStep localKeys acc c).map Item.key := by
  cases hc : localKeys.contains c.key with
  | false =>
    have hnot : c.key ∉ localKeys := by simpa using hc
    unfold mergeStep
    simp [hnot]
  | true =>
    have hmem : c.key ∈ localKeys := by
      simpa using hc
    exact mem_key_mergeStep localKeys acc c c.key (hsub c.key hmem)

theorem cloudKey_mem_foldl (localKeys : List String) (cloudArray : List Item) :
    ∀ (acc : List Item), (∀ s ∈ localKeys, s ∈ acc.map Item.key) →
      ∀ c ∈ cloudArray,
        c.key ∈ (cloudArray.foldl (mergeStep localKeys) acc).map Item.key := by
  induction cloudArray with
  | nil => intro acc _ c hc; simp at hc
  | cons b rest ih =>
    intro acc hsub c hc
    have hsub2 : ∀ s ∈ localKeys, s ∈ (mergeStep localKeys acc b).map Item.key :=
      fun s hs => mem_key_mergeStep localKeys acc b s (hsub s hs)
    rcases List.mem_cons.mp hc with hcb | hcr
    · subst hcb
      exact mem_key_foldl_mergeStep localKeys rest (mergeStep localKeys acc c) c.key
        (cloudKey_mem_mergeStep localKeys acc c hsub)
    · exact ih (mergeStep localKeys acc b) hsub2 c hcr

/-- C1: for every local collection `A` and cloud collection `B` merged over a
natural key by `mergeArrayData`, every key present in `A` or in `B` is
present in the merged result: the reconciler never silently drops a key. -/
theorem mergeArrayData_no_silent_drops (localArray cloudArray : List Item)
    (k : String)
    (h : k ∈ localArray.map Item.key ∨ k ∈ cloudArray.map Item.key) :
    k ∈ (mergeArrayData localArray cloudArray).map Item.key := by
  unfold mergeArrayData
  rcases h with hl | hc
  · exact mem_key_foldl_mergeStep (localArray.map Item.key) cloudArray localArray k hl
  · rcases List.mem_map.mp hc with ⟨c, hcmem, hck⟩
    subst hck
    exact cloudKey_mem_foldl (localArray.map Item.key) cloudArray localArray
      (fun s hs => hs) c hcmem

/-- C1 witness: the no-silent-drops theorem applied to concrete one-record
collections, one key from each side. -/
theorem mergeArrayData_no_silent_drops_witness :
    "t1" ∈ (mergeArrayData
      [Item.mk "t1" JsDateField.absent (JsDateField.time 1) 20]
      [Item.mk "t2" JsDateField.absent (JsDateField.time 2) 10]).map Item.key ∧
    "t2" ∈ (mergeArrayData
      [Item.mk "t1" JsDateField.absent (JsDateField.time 1) 20]
      [Item.mk "t2" JsDateField.absent (JsDateField.time 2) 10]).map Item.key :=
  And.intro
    (mergeArrayData_no_silent_drops
      [Item.mk "t1" JsDateField.absent (JsDateField.time 1) 20]
      [Item.mk "t2" JsDateField.absent (JsDateField.time 2) 10]
      "t1" (Or.inl (by decide)))
    (mergeArrayData_no_silent_drops
      [Item.mk "t1" JsDateField.absent (JsDateField.time 1) 20]
      [Item.mk "t2" JsDateField.absent (JsDateField.time 2) 10]
      "t2" (Or.inr (by decide)))

/-! Conflict resolution: tracking the single record that carries a given key
through the fold. -/

theorem filter_set_not_key (l : List Item) (i : Nat) (c y : Item) (k : String)
    (h : l[i]? = some y) (hy : (y.key == k) = false) (hc : (c.key == k) = false) :
    (l.set i c).filter (fun it => it.key == k) = l.filter (fun it => it.key == k) := by
  induction l generalizing i with
  | nil => simp at h
  | cons a t ih =>
    cases i with
    | zero =>
      simp at h
      subst h
      simp [List.filter_cons, hy, hc]
    | succ n =>
      simp at h
      simp [List.filter_cons, ih n h]

theorem filter_key_mergeStep_ne (localKeys : List String) (acc : List Item)
    (c : Item) (k : String) (hne : (c.key == k) = false) :
    (mergeStep localKeys acc c).filter (fun it => it.key == k)
      = acc.filter (fun it => it.key == k) := by
  unfold mergeStep
  cases hcont : localKeys.contains c.key with
  | false =>
    have hnot : c.key ∉ localKeys := by simpa using hcont
    simp [hnot, List.filter_append, List.filter_cons, hne]
  | true =>
    have hmem : c.key ∈ localKeys := by simpa using hcont
    simp only [hmem, if_true]
    cases hm : acc[acc.findIdx (fun item => item.key == c.key)]? with
    | none => simp [hm]
    | some localItem =>
      have hyk : (localItem.key == k) = false := by
        have hp := getElem_findIdx_pred (fun item => item.key == c.key) acc localItem hm
        have hyc : localItem.key = c.key := by simpa using hp
        simpa [hyc] using hne
      by_cases hgt : jsGt (itemTime c) (itemTime localItem)
      · simp [hm, hgt, filter_set_not_key acc _ c localItem k hm hyk hne]
      · simp [hm, hgt]

theorem findIdx_filter_singleton (acc : List Item) (x : Item) (k : String)
    (hf : acc.filter (fun it => it.key == k) = [x]) :
    acc[acc.findIdx (fun it => it.key == k)]? = some x ∧
    ∀ c : Item, (c.key == k) = true →
      (acc.set (acc.findIdx (fun it => it.key == k)) c).filter
        (fun it => it.key == k) = [c] := by
  induction acc with
  | nil => simp at hf
  | cons a t ih =>
    cases ha : (a.key == k) with
    | true =>
      simp only [List.filter_cons, ha, if_true] at hf
      rcases List.cons_eq_cons.mp hf with ⟨hax, htf⟩
      constructor
      · subst hax
        simp [List.findIdx_cons, ha]
      · intro c hck
        simp [List.findIdx_cons, ha, List.filter_cons, hck, htf]
    | false =>
      simp only [List.filter_cons, ha, if_false] at hf
      rcases ih hf with ⟨ih1, ih2⟩
      constructor
      · simpa [List.findIdx_cons, ha] using ih1
      · intro c hck
        simp [List.findIdx_cons, ha, List.filter_cons, ih2 c hck]

theorem mergeStep_conflict (localKeys : List String) (acc : List Item)
    (c x : Item) (k : String) (hck : c.key = k)
    (hcont : localKeys.contains c.key = true)
    (hf : acc.filter (fun it => it.key == k) = [x]) :
    (mergeStep localKeys acc c).filter (fun it => it.key == k)
      = [if jsGt (itemTime c) (itemTime x) then c else x] := by
  subst hck
  have hmem : c.key ∈ localKeys := by simpa using hcont
  rcases findIdx_filter_singleton acc x c.key hf with ⟨h1, h2⟩
  unfold mergeStep
  simp only [hmem, if_true, h1]
  by_cases hgt : jsGt (itemTime c) (itemTime x)
  · simp [hmem, hgt, h2 c (by simp)]
  · simp [hmem, hgt, hf]

theorem foldl_filter_no_key (localKeys : List String) (k : String) :
    ∀ (cloudArray acc : List Item),
      cloudArray.filter (fun it => it.key == k) = [] →
      (cloudArray.foldl (mergeStep localKeys) acc).filter (fun it => it.key == k)
        = acc.filter (fun it => it.key == k) := by
  intro cloudArray
  induction cloudArray with
  | nil => intro acc _; rfl
  | cons c rest ih =>
    intro acc hcl
    cases hc : (c.key == k) with
    | true => simp [List.filter_cons, hc] at hcl
    | false =>
      simp only [List.filter_cons, hc, if_false] at hcl
      rw [List.foldl_cons, ih (mergeStep localKeys acc c) hcl,
        filter_key_mergeStep_ne localKeys acc c k hc]

theorem foldl_filter_conflict (localKeys : List String) (k : String) (b : Item)
    (hcont : localKeys.contains k = true) :
    ∀ (cloudArray acc : List Item) (x : Item),
      cloudArray.filter (fun it => it.key == k) = [b] →
      acc.filter (fun it => it.key == k) = [x] →
      (cloudArray.foldl (mergeStep localKeys) acc).filter (fun it => it.key == k)
        = [if jsGt (itemTime b) (itemTime x) then b else x] := by
  intro cloudArray
  induction cloudArray with
  | nil => intro acc x hcl _; simp at hcl
  | cons c rest ih =>
    intro acc x hcl hacc
    cases hc : (c.key == k) with
    | true =>
      simp only [List.filter_cons, hc, if_true] at hcl
      rcases List.cons_eq_cons.mp hcl with ⟨hcb, hrest⟩
      subst hcb
      have hck : c.key = k := by simpa using hc
      rw [List.foldl_cons,
        foldl_filter_no_key localKeys k rest (mergeStep localKeys acc c) hrest,
        mergeStep_conflict localKeys acc c x k hck (hck ▸ hcont) hacc]
    | false =>
      simp only [List.filter_cons, hc, if_false] at hcl
      rw [List.foldl_cons]
      exact ih (mergeStep localKeys acc c) x hcl
        (by rw [filter_key_mergeStep_ne localKeys acc c k hc, hacc])

/-- C2: when a key has exactly one record on each side and the two records
carry distinct real (non-NaN) times under the `timestamp || date || 0`
fallback, the merged collection keeps exactly the record with the later
time, and the same record wins when the two collections swap roles
(local versus cloud argument of `mergeArrayData`). -/
theorem mergeArrayData_conflict_lww (A B : List Item) (a b : Item) (k : String)
    (ta tb : Int)
    (hA : A.filter (fun it => it.key == k) = [a])
    (hB : B.filter (fun it => it.key == k) = [b])
    (hta : itemTime a = JsTime.val ta) (htb : itemTime b = JsTime.val tb)
    (hne : ta ≠ tb) :
    (mergeArrayData A B).filter (fun it => it.key == k)
        = [if ta < tb then b else a] ∧
    (mergeArrayData B A).filter (fun it => it.key == k)
        = [if ta < tb then b else a] := by
  have haA : a ∈ A ∧ (a.key == k) = true := by
    have : a ∈ A.filter (fun it => it.key == k) := by rw [hA]; simp
    simpa using List.mem_filter.mp this
  have hbB : b ∈ B ∧ (b.key == k) = true := by
    have : b ∈ B.filter (fun it => it.key == k) := by rw [hB]; simp
    simpa using List.mem_filter.mp this
  have hak : a.key = k := by simpa using haA.2
  have hbk : b.key = k := by simpa using hbB.2
  have hcontA : (A.map Item.key).contains k = true := by
    simpa using List.mem_map.mpr ⟨a, haA.1, hak⟩
  have hcontB : (B.map Item.key).contains k = true := by
    simpa using List.mem_map.mpr ⟨b, hbB.1, hbk⟩
  constructor
  · rw [mergeArrayData,
      foldl_filter_conflict (A.map Item.key) k b hcontA B A a hB hA]
    rw [hta, htb]
    by_cases hlt : ta < tb
    · simp [jsGt, hlt]
    · simp [jsGt, hlt]
  · rw [mergeArrayData,
      foldl_filter_conflict (B.map Item.key) k a hcontB A B b hA hB]
    rw [hta, htb]
    by_cases hlt : ta < tb
    · have hnlt : ¬ tb < ta := by omega
      simp [jsGt, hlt, hnlt]
    · have hlt2 : tb < ta := by omega
      simp [jsGt, hlt, hlt2]

/-- C2 witness: the spec's own conflict scenario, one record per side for key
t1 with times 1 and 5, resolved the same way in both argument orders. -/
theorem mergeArrayData_conflict_lww_witness :
    (mergeArrayData
        [Item.mk "t1" JsDateField.absent (JsDateField.time 1) 20]
        [Item.mk "t1" JsDateField.absent (JsDateField.time 5) 25]).filter
        (fun it => it.key == "t1")
      = [if (1 : Int) < 5 then Item.mk "t1" JsDateField.absent (JsDateField.time 5) 25
         else Item.mk "t1" JsDateField.absent (JsDateField.time 1) 20] ∧
    (mergeArrayData
        [Item.mk "t1" JsDateField.absent (JsDateField.time 5) 25]
        [Item.mk "t1" JsDateField.absent (JsDateField.time 1) 20]).filter
        (fun it => it.key == "t1")
      = [if (1 : Int) < 5 then Item.mk "t1" JsDateField.absent (JsDateField.time 5) 25
         else Item.mk "t1" JsDateField.absent (JsDateField.time 1) 20] :=
  mergeArrayData_conflict_lww
    [Item.mk "t1" JsDateField.absent (JsDateField.time 1) 20]
    [Item.mk "t1" JsDateField.absent (JsDateField.time 5) 25]
    (Item.mk "t1" JsDateField.absent (JsDateField.time 1) 20)
    (Item.mk "t1" JsDateField.absent (JsDateField.time 5) 25)
    "t1" 1 5 (by decide) (by decide) (by decide) (by decide) (by decide)

/-! Idempotence of the merge on key-distinct collections. -/

theorem jsGt_irrefl (t : JsTime) : jsGt t t = false := by
  cases t <;> simp [jsGt]

theorem findIdx_self_of_nodup (A : List Item) (hnd : (A.map Item.key).Nodup)
    (c : Item) (hc : c ∈ A) :
    A[A.findIdx (fun item => item.key == c.key)]? = some c := by
  induction A with
  | nil => simp at hc
  | cons a t ih =>
    rcases List.mem_cons.mp hc with rfl | hct
    · simp [List.findIdx_cons]
    · have hmap : (Item.key a :: t.map Item.key).Nodup := by simpa using hnd
      have hnotin : a.key ∉ t.map Item.key := (List.nodup_cons.mp hmap).1
      have htnd : (t.map Item.key).Nodup := (List.nodup_cons.mp hmap).2
      have hak : (a.key == c.key) = false := by
        have hne : a.key ≠ c.key := fun h => hnotin (h ▸ List.mem_map.mpr ⟨c, hct, rfl⟩)
        simpa using hne
      simpa [List.findIdx_cons, hak] using ih htnd hct

theorem mergeStep_self (A : List Item) (hnd : (A.map Item.key).Nodup)
    (c : Item) (hc : c ∈ A) :
    mergeStep (A.map Item.key) A c = A := by
  have hcont : c.key ∈ A.map Item.key := List.mem_map.mpr ⟨c, hc, rfl⟩
  unfold mergeStep
  simp [hcont, findIdx_self_of_nodup A hnd c hc, jsGt_irrefl]

theorem foldl_mergeStep_self (A : List Item) (hnd : (A.map Item.key).Nodup) :
    ∀ B : List Item, (∀ c ∈ B, c ∈ A) →
      B.foldl (mergeStep (A.map Item.key)) A = A := by
  intro B
  induction B with
  | nil => intro _; rfl
  | cons c rest ih =>
    intro hB
    rw [List.foldl_cons, mergeStep_self A hnd c (hB c (by simp))]
    exact ih (fun d hd => hB d (List.mem_cons_of_mem c hd))

/-- C3 counterexample: the claim "merging any collection A with itself yields
A" fails for a collection that repeats a key with increasing times: the
second copy wins the conflict against the first copy's slot, so the merged
list differs from the input. -/
theorem mergeArrayData_self_idem_counterexample :
    (mergeArrayData
        [Item.mk "k" (JsDateField.time 0) JsDateField.absent 0,
         Item.mk "k" (JsDateField.time 1) JsDateField.absent 1]
        [Item.mk "k" (JsDateField.time 0) JsDateField.absent 0,
         Item.mk "k" (JsDateField.time 1) JsDateField.absent 1]
      = [Item.mk "k" (JsDateField.time 0) JsDateField.absent 0,
         Item.mk "k" (JsDateField.time 1) JsDateField.absent 1]) = False :=
  eq_false (by decide)

/-- C3 (amended): merging a collection with itself yields the collection
unchanged whenever its natural keys are pairwise distinct, which is the
documented invariant for every synchronized collection. -/
theorem mergeArrayData_self_idem (A : List Item)
    (hnd : (A.map Item.key).Nodup) :
    mergeArrayData A A = A :=
  foldl_mergeStep_self A hnd A (fun _ hc => hc)

/-- C3 witness: idempotence at a concrete two-record collection with
distinct keys. -/
theorem mergeArrayData_self_idem_witness :
    mergeArrayData
        [Item.mk "t1" JsDateField.absent (JsDateField.time 1) 20,
         Item.mk "t2" JsDateField.absent (JsDateField.time 2) 10]
        [Item.mk "t1" JsDateField.absent (JsDateField.time 1) 20,
         Item.mk "t2" JsDateField.absent (JsDateField.time 2) 10]
      = [Item.mk "t1" JsDateField.absent (JsDateField.time 1) 20,
         Item.mk "t2" JsDateField.absent (JsDateField.time 2) 10] :=
  mergeArrayData_self_idem
    [Item.mk "t1" JsDateField.absent (JsDateField.time 1) 20,
     Item.mk "t2" JsDateField.absent (JsDateField.time 2) 10]
    (by decide)

/-! Settings merge (src/unnamed/part_002 lines 2919-2930). A JS settings
object is a finite map from field names to primitive values; an absent
field is `none`. -/

/-- A JS settings object, field name to value; `none` = field absent. -/
def JsObj : Type := String → Option JsVal

/-- The object spread in `mergeSettings`: fields present in the cloud record
override, all other fields keep the local value. -/
def spreadMerge (localSettings cloudSettings : JsObj) : JsObj :=
  fun f =>
    match cloudSettings f with
    | some v => some v
    | none => localSettings f

/-- `mergeSettings(cloudSettings)` from src/unnamed/part_002 lines
2919-2930: spread local then cloud, then restore the two device-local
fields `deviceId` and `lastLocalSync` from the local record. The read of
the local record from storage and the save of the result are modelled by
taking and returning the records directly. -/
def mergeSettings (localSettings cloudSettings : JsObj) : JsObj :=
  let mergedSettings := spreadMerge localSettings cloudSettings
  fun f =>
    if f = "deviceId" then localSettings f
    else if f = "lastLocalSync" then localSettings f
    else mergedSettings f

/-- A local settings record holding only a low-balance threshold. -/
def exLocalOnly : JsObj :=
  fun f => if f = "lowBalanceThreshold" then some (JsVal.num 100) else none

/-- An empty cloud settings record. -/
def exEmptyCloud : JsObj := fun _ => none

/-- C4 counterexample: with an empty remote record, the merged settings do
not equal the remote record on the field lowBalanceThreshold — the JS
spread keeps the local value for every field the remote record lacks, so
the merge is not whole-record replacement. -/
theorem mergeSettings_counterexample :
    (mergeSettings exLocalOnly exEmptyCloud "lowBalanceThreshold"
      = exEmptyCloud "lowBalanceThreshold") = False :=
  eq_false (by decide)

/-- C4 (amended): the settings merge takes the remote value for every field
the remote record actually carries, except the device-local fields
`deviceId` and `lastLocalSync`, which always keep their local values; a
field absent from the remote record keeps its local value. -/
theorem mergeSettings_spec (localSettings cloudSettings : JsObj) (f : String)
    (hd : f ≠ "deviceId") (hl : f ≠ "lastLocalSync") :
    (∀ v, cloudSettings f = some v →
      mergeSettings localSettings cloudSettings f = some v) ∧
    (cloudSettings f = none →
      mergeSettings localSettings cloudSettings f = localSettings f) ∧
    mergeSettings localSettings cloudSettings "deviceId"
      = localSettings "deviceId" ∧
    mergeSettings localSettings cloudSettings "lastLocalSync"
      = localSettings "lastLocalSync" := by
  refine ⟨fun v hv => ?_, fun hv => ?_, ?_, ?_⟩
  · simp [mergeSettings, spreadMerge, hd, hl, hv]
  · simp [mergeSettings, spreadMerge, hd, hl, hv]
  · simp [mergeSettings]
  · simp [mergeSettings]

/-- C4 witness: the amended settings-merge behaviour at concrete records,
on the non-device field lowBalanceThreshold. -/
theorem mergeSettings_spec_witness :
    (∀ v, exEmptyCloud "lowBalanceThreshold" = some v →
      mergeSettings exLocalOnly exEmptyCloud "lowBalanceThreshold" = some v) ∧
    (exEmptyCloud "lowBalanceThreshold" = none →
      mergeSettings exLocalOnly exEmptyCloud "lowBalanceThreshold"
        = exLocalOnly "lowBalanceThreshold") ∧
    mergeSettings exLocalOnly exEmptyCloud "deviceId"
      = exLocalOnly "deviceId" ∧
    mergeSettings exLocalOnly exEmptyCloud "lastLocalSync"
      = exLocalOnly "lastLocalSync" :=
  mergeSettings_spec exLocalOnly exEmptyCloud "lowBalanceThreshold"
    (by decide) (by decide)

/-! Dynamically typed collection values. The app stores its categories as a
plain object with income and expense string lists (src/unnamed/part_002
lines 1413-1416) and its budgets as a plain object keyed by category, yet
`mergeCloudData` (lines 2849-2890) hands both to `mergeArrayData`, which
spreads its first argument as an array and calls forEach on its second:
on a non-array object both operations throw a TypeError. -/

/-- A JS value sitting in a collection slot: a genuine array of records, the
categories object (income and expense name lists), or the budgets object
(category name to amount). -/
inductive JsColl where
  | arr (items : List Item)
  | catObj (income expense : List String)
  | budObj (entries : List (String × Int))
deriving DecidableEq, Repr

/-- The array spread `[...localArray]` (src/unnamed/part_002 line 2894):
spreading a non-array plain object throws a TypeError. -/
def spreadArray : JsColl → Except String (List Item)
  | JsColl.arr items => Except.ok items
  | _ => Except.error "TypeError: spread of non-iterable object"

/-- The loop `cloudArray.forEach(...)` (line 2898): a plain object has no
forEach method, so the call throws a TypeError. -/
def forEachItems : JsColl → Except String (List Item)
  | JsColl.arr items => Except.ok items
  | _ => Except.error "TypeError: forEach is not a function"

/-- `mergeArrayData` as invoked on dynamically typed values: evaluate the
spread of the local value, then the forEach over the cloud value, and only
when both are arrays run the merge loop. -/
def mergeArrayDataDyn (localVal cloudVal : JsColl) : Except String JsColl :=
  match spreadArray localVal with
  | Except.error e => Except.error e
  | Except.ok localArray =>
    match forEachItems cloudVal with
    | Except.error e => Except.error e
    | Except.ok cloudArray =>
      Except.ok (JsColl.arr (mergeArrayData localArray cloudArray))

/-- The app's default category object (src/unnamed/part_002 lines
1383-1386 and 1413-1416). -/
def defaultCategories : JsColl :=
  JsColl.catObj
    ["Salary", "Freelance", "Investment", "Gift", "Other"]
    ["Food", "Transportation", "Entertainment", "Bills", "Shopping",
     "Healthcare", "Other"]

/-- The app's default settings record (src/unnamed/part_002 lines
1379-1381, 1405-1409 and 2503-2507). -/
def defaultSettings : JsObj :=
  fun f =>
    if f = "lowBalanceThreshold" then some (JsVal.num 100)
    else if f = "overspendingAlert" then some (JsVal.num 80)
    else if f = "enableNotifications" then some (JsVal.bool false)
    else none

/-- C5: the category merge never computes a per-type set union: because the
local categories value is the documented plain object, the very first step
of `mergeArrayData` (the array spread) throws a TypeError, whatever the
cloud value is, so the sync aborts instead of unioning the name sets. -/
theorem mergeCategories_type_error (income expense : List String)
    (cloudVal : JsColl) :
    mergeArrayDataDyn (JsColl.catObj income expense) cloudVal
      = Except.error "TypeError: spread of non-iterable object" := rfl

/-! The sync cycle `performCloudSync` (src/unnamed/part_002 lines 2802-2846)
and the merge it drives, `mergeCloudData` (lines 2849-2889). The cycle
holds a SupabaseSync instance (created at line 2731 from the class in
src/supabase-client.js) and invokes `this.supabaseSync.downloadData()` and
`this.supabaseSync.uploadData(...)` on it — method names the class does not
define anywhere (it defines `downloadFromCloud`, lines 189-219, and
`uploadToCloud`, lines 143-186). A JS method lookup on an absent name
yields undefined and calling it throws a TypeError, so the client's method
slots are modelled explicitly. -/

/-- The in-memory collections of the app controller: `this.transactions`,
`this.budgets`, `this.categories`, `this.settings`. Transactions are always
an array; budgets and categories are the plain objects the app maintains
(dynamically typed, since the sync code would store arrays into them). -/
structure AppState where
  transactions : List Item
  budgets : JsColl
  categories : JsColl
  settings : JsObj

/-- The snapshot assembled by `downloadFromCloud`: each entity is present,
or absent when the cloud holds nothing for it. -/
structure CloudData where
  transactions : Option (List Item)
  budgets : Option JsColl
  categories : Option JsColl
  settings : Option JsObj

/-- The settings step of `mergeCloudData` (lines 2872-2875): never throws. -/
def mergeCloudDataSettings (st : AppState) (cloudData : CloudData) :
    AppState × Option String :=
  match cloudData.settings with
  | some cloudSettings =>
    ({ st with settings := mergeSettings st.settings cloudSettings }, none)
  | none => (st, none)

/-- The categories step of `mergeCloudData` (lines 2867-2870): on an
exception the partially updated state is kept and the error propagates to
the caller's catch block. -/
def mergeCloudDataCategories (st : AppState) (cloudData : CloudData) :
    AppState × Option String :=
  match cloudData.categories with
  | some cloudCats =>
    match mergeArrayDataDyn st.categories cloudCats with
    | Except.error e => (st, some e)
    | Except.ok merged => mergeCloudDataSettings { st with categories := merged } cloudData
  | none => mergeCloudDataSettings st cloudData

/-- The budgets step of `mergeCloudData` (lines 2862-2865). -/
def mergeCloudDataBudgets (st : AppState) (cloudData : CloudData) :
    AppState × Option String :=
  match cloudData.budgets with
  | some cloudBudgets =>
    match mergeArrayDataDyn st.budgets cloudBudgets with
    | Except.error e => (st, some e)
    | Except.ok merged => mergeCloudDataCategories { st with budgets := merged } cloudData
  | none => mergeCloudDataCategories st cloudData

/-- `mergeCloudData(cloudData)` (lines 2849-2889): merge transactions, then
budgets, then categories, then settings; the first exception stops the
sequence with the state mutated so far. The `saveData` and UI refresh calls
at the end are outside the data model. -/
def mergeCloudData (st : AppState) (cloudData : CloudData) :
    AppState × Option String :=
  match cloudData.transactions with
  | some cloudTx =>
    mergeCloudDataBudgets
      { st with transactions := mergeArrayData st.transactions cloudTx } cloudData
  | none => mergeCloudDataBudgets st cloudData

/-- A method slot of a JS object: `defined` carries the outcome a call to
the method produces, `absent` records that the property lookup yields
undefined. -/
inductive JsMethod (alpha : Type) where
  | defined (result : alpha)
  | absent
deriving DecidableEq, Repr

/-- Invoking a method slot: a defined method returns its outcome; calling
an absent one (undefined) throws a TypeError. -/
def callMethod {alpha : Type} (name : String) : JsMethod alpha → Except String alpha
  | JsMethod.defined result => Except.ok result
  | JsMethod.absent => Except.error ("TypeError: " ++ name ++ " is not a function")

/-- The SupabaseSync client surface as `performCloudSync` sees it: the two
methods the class defines (`downloadFromCloud` returning the snapshot, or
null both for an empty cloud and for a failed download; `uploadToCloud`
returning a success boolean) and the two names the sync cycle actually
invokes, `downloadData` and `uploadData`. -/
structure SupabaseSyncClient where
  downloadFromCloud : JsMethod (Option CloudData)
  uploadToCloud : JsMethod Bool
  downloadData : JsMethod (Option CloudData)
  uploadData : JsMethod Bool

/-- An instance of the SupabaseSync class (src/supabase-client.js lines
4-432) whose download would yield `downloaded` and whose upload would
report `uploadOk`: the class defines `downloadFromCloud` and
`uploadToCloud`, and defines no method named `downloadData` or
`uploadData`, so on every instance those two slots are absent. -/
def supabaseSyncInstance (downloaded : Option CloudData) (uploadOk : Bool) :
    SupabaseSyncClient :=
  { downloadFromCloud := JsMethod.defined downloaded
    uploadToCloud := JsMethod.defined uploadOk
    downloadData := JsMethod.absent
    uploadData := JsMethod.absent }

/-- `performCloudSync()` (lines 2802-2846): return false when cloud sync is
disabled (the null-client check and the flag check, line 2803); otherwise,
inside the try block, call `this.supabaseSync.downloadData()`, merge when
the call returned data, then call `this.supabaseSync.uploadData(...)` and
report its outcome; any error thrown in the try block — a merge exception,
or the TypeError from invoking a method the client does not define — lands
in the catch block, which sets the error status and returns false. Returns
the final in-memory state and the boolean the caller receives. -/
def performCloudSync (st : AppState) (cloudSyncEnabled : Bool)
    (client : SupabaseSyncClient) : AppState × Bool :=
  if cloudSyncEnabled = false then (st, false)
  else
    match callMethod "downloadData" client.downloadData with
    | Except.error _ => (st, false)
    | Except.ok downloaded =>
      let afterMerge : AppState × Option String :=
        match downloaded with
        | some cloudData => mergeCloudData st cloudData
        | none => (st, none)
      match afterMerge with
      | (st2, some _) => (st2, false)
      | (st2, none) =>
        match callMethod "uploadData" client.uploadData with
        | Except.error _ => (st2, false)
        | Except.ok ok => (st2, ok)

/-- C6: in every sync cycle against an instance of the SupabaseSync class —
in particular every cycle whose download would fail and yield no data — the
local collections after the cycle are exactly the collections before it, so
no local record is deleted, and the cycle reports false to its caller,
never success: the call to `downloadData`, a name the client class does not
define, throws a TypeError inside the try block before any download or
merge can run, and the catch block reports the failure. -/
theorem performCloudSync_failure_reported (st : AppState)
    (cloudSyncEnabled : Bool) (downloaded : Option CloudData) (uploadOk : Bool) :
    performCloudSync st cloudSyncEnabled
        (supabaseSyncInstance downloaded uploadOk) = (st, false) := by
  cases cloudSyncEnabled <;> rfl

/-! Local persistence: `loadData` of the main app (src/unnamed/part_002
lines 1390-1443) with its sessionStorage fallback, and the per-key
`loadData(key, defaultValue)` of src/script_backup.js lines 262-279. -/

/-- One storage slot as `getItem` plus `JSON.parse` see it: the key is
missing (getItem returns null), holds a non-JSON string (JSON.parse
throws), the storage itself throws on read, or holds JSON encoding the
well-typed value `v`. -/
inductive Cell (alpha : Type) where
  | missing
  | corrupt
  | throwsOnRead
  | json (v : alpha)
deriving DecidableEq, Repr

/-- `storage.getItem(key)` followed by `JSON.parse` when non-null:
`Except.error` is a thrown exception, `Except.ok none` a missing key. -/
def readCell {alpha : Type} : Cell alpha → Except Unit (Option alpha)
  | Cell.missing => Except.ok none
  | Cell.corrupt => Except.error ()
  | Cell.throwsOnRead => Except.error ()
  | Cell.json v => Except.ok (some v)

/-- The four localStorage slots `loadData` reads, in program order. -/
structure LocalStoreState where
  transactions : Cell (List Item)
  budgets : Cell JsColl
  settings : Cell JsObj
  categories : Cell JsColl

/-- The in-memory fields as `loadData` leaves them; `none` = the field was
never assigned (JS undefined). -/
structure RawState where
  transactions : Option (List Item)
  budgets : Option JsColl
  settings : Option JsObj
  categories : Option JsColl

/-- `initializeDefaultData()` (src/unnamed/part_002 lines 1375-1387): the
documented default collections — no transactions, an empty budgets object,
the default settings record, the default category sets. -/
def defaultLoadedState : RawState :=
  { transactions := some []
    budgets := some (JsColl.budObj [])
    settings := some defaultSettings
    categories := some defaultCategories }

/-- The catch block of `loadData` (lines 1425-1442): try sessionStorage; if
it holds transaction data use that (only the transactions field changes),
otherwise — or if the fallback read throws too — fall back to the default
collections. -/
def sessionFallback (st : RawState) (sessionTx : Cell (List Item)) : RawState :=
  match readCell sessionTx with
  | Except.ok (some v) => { st with transactions := some v }
  | Except.ok none => defaultLoadedState
  | Except.error _ => defaultLoadedState

/-- `loadData()` (src/unnamed/part_002 lines 1390-1443): read and parse the
four keys in order, substituting the per-key default for a missing key; the
first thrown read or parse jumps to the catch block with the fields
assigned so far. -/
def loadData (st : RawState) (ls : LocalStoreState)
    (sessionTx : Cell (List Item)) : RawState :=
  match readCell ls.transactions with
  | Except.error _ => sessionFallback st sessionTx
  | Except.ok tv =>
    let st1 : RawState := { st with transactions := some (tv.getD []) }
    match readCell ls.budgets with
    | Except.error _ => sessionFallback st1 sessionTx
    | Except.ok bv =>
      let st2 : RawState := { st1 with budgets := some (bv.getD (JsColl.budObj [])) }
      match readCell ls.settings with
      | Except.error _ => sessionFallback st2 sessionTx
      | Except.ok sv =>
        let st3 : RawState := { st2 with settings := some (sv.getD defaultSettings) }
        match readCell ls.categories with
        | Except.error _ => sessionFallback st3 sessionTx
        | Except.ok cv =>
          { st3 with categories := some (cv.getD defaultCategories) }

/-- The per-key `loadData(key, defaultValue)` of src/script_backup.js lines
262-279: any thrown read or parse, and any missing key, yields the default. -/
def loadDataKey {alpha : Type} (cell : Cell alpha) (defaultValue : alpha) : alpha :=
  match readCell cell with
  | Except.error _ => defaultValue
  | Except.ok none => defaultValue
  | Except.ok (some v) => v

/-- A store whose every key is absent. -/
def allMissingStore : LocalStoreState :=
  { transactions := Cell.missing
    budgets := Cell.missing
    settings := Cell.missing
    categories := Cell.missing }

/-- The in-memory state before the first load: nothing assigned. -/
def emptyRawState : RawState :=
  { transactions := none, budgets := none, settings := none, categories := none }

/-- A store with readable transactions but a corrupt budgets slot. -/
def exCorruptStore : LocalStoreState :=
  { transactions := Cell.json []
    budgets := Cell.corrupt
    settings := Cell.missing
    categories := Cell.missing }

/-- C7 counterexample: with a corrupt budgets slot and a sessionStorage
transaction backup present, `loadData` does not return the documented
default collections: it restores the backed-up transactions and leaves the
budgets field unassigned, differing from the defaults on the budgets field. -/
theorem loadData_counterexample :
    ((loadData emptyRawState exCorruptStore
        (Cell.json [Item.mk "t9" JsDateField.absent (JsDateField.time 3) 7])).budgets
      = defaultLoadedState.budgets) = False :=
  eq_false (by decide)

/-- C7 (amended): `loadData` never throws (every read is wrapped, so it is
total by construction); a store whose keys are all missing loads exactly
the documented default collections; and when any of the four reads throws
— corrupt JSON or a storage that throws on read — the result is exactly
the documented default collections provided the sessionStorage fallback
holds no transaction backup (a present backup is restored instead). The
per-key loader of the backup variant likewise returns its default for any
missing, corrupt or throwing slot. -/
theorem loadData_error_defaults (st stm : RawState) (ls : LocalStoreState)
    (sessionTx sessionTx2 : Cell (List Item))
    (cellBk : Cell (List Item)) (defBk : List Item)
    (hsession : ∀ v : List Item, sessionTx ≠ Cell.json v)
    (hbk : ∀ v : List Item, cellBk ≠ Cell.json v)
    (herr : readCell ls.transactions = Except.error ()
      ∨ readCell ls.budgets = Except.error ()
      ∨ readCell ls.settings = Except.error ()
      ∨ readCell ls.categories = Except.error ()) :
    loadData st ls sessionTx = defaultLoadedState
      ∧ loadData stm allMissingStore sessionTx2 = defaultLoadedState
      ∧ loadDataKey cellBk defBk = defBk := by
  have hfb : sessionFallback st sessionTx = defaultLoadedState ∧
      ∀ st2 : RawState, sessionFallback st2 sessionTx = defaultLoadedState := by
    cases sessionTx with
    | json v => exact absurd rfl (hsession v)
    | missing => exact ⟨rfl, fun _ => rfl⟩
    | corrupt => exact ⟨rfl, fun _ => rfl⟩
    | throwsOnRead => exact ⟨rfl, fun _ => rfl⟩
  refine ⟨?_, rfl, ?_⟩
  · rcases ls with ⟨ct, cb, cs, cc⟩
    cases ct <;> cases cb <;> cases cs <;> cases cc <;>
      simp_all [loadData, readCell, hfb.2]
  · cases cellBk with
    | json v => exact absurd rfl (hbk v)
    | missing => rfl
    | corrupt => rfl
    | throwsOnRead => rfl

/-- C7 witness: the amended load behaviour at a concrete corrupt store with
an empty session fallback, at the all-missing store, and at a corrupt
backup-variant slot. -/
theorem loadData_error_defaults_witness :
    loadData emptyRawState exCorruptStore Cell.missing = defaultLoadedState
      ∧ loadData emptyRawState allMissingStore Cell.missing = defaultLoadedState
      ∧ loadDataKey (Cell.corrupt : Cell (List Item)) [] = [] :=
  loadData_error_defaults emptyRawState emptyRawState exCorruptStore
    Cell.missing Cell.missing Cell.corrupt []
    (fun _ h => Cell.noConfusion h)
    (fun _ h => Cell.noConfusion h)
    (Or.inr (Or.inl rfl))

/-! Export and import (src/unnamed/part_002: `exportData` lines 2473-2496,
`clearAllData` lines 2499-2514 and 837-852, `importData` lines 2525-2583,
`validateImportedData` lines 2586-2593). The snapshot is plain JSON data,
so serializing and re-parsing it is the identity on the collections; the
file-download and file-reader plumbing is out of scope. -/

/-- The full-state snapshot `exportData` serializes. -/
structure ExportBlob where
  transactions : List Item
  budgets : JsColl
  settings : JsObj
  categories : JsColl
  exportDate : String
  version : String

/-- A parsed imported snapshot: any field may be absent. -/
structure ImportBlob where
  transactions : Option (List Item)
  budgets : Option JsColl
  settings : Option JsObj
  categories : Option JsColl
  exportDate : Option String

/-- `exportData()` (lines 2473-2496): snapshot the four collections with an
export timestamp and the app version. -/
def exportData (st : AppState) (now version : String) : ExportBlob :=
  { transactions := st.transactions
    budgets := st.budgets
    settings := st.settings
    categories := st.categories
    exportDate := now
    version := version }

/-- `JSON.parse` applied to the `JSON.stringify` of an exported snapshot:
the identity on this plain data, with every field present. -/
def parseExported (blob : ExportBlob) : ImportBlob :=
  { transactions := some blob.transactions
    budgets := some blob.budgets
    settings := some blob.settings
    categories := some blob.categories
    exportDate := some blob.exportDate }

/-- `validateImportedData(data)` (lines 2586-2593): the parse result is an
object by construction; transactions must be an array (so the field must be
present); budgets, settings and categories are objects whenever present, so
those checks pass in this model. -/
def validateImportedData (data : ImportBlob) : Bool :=
  data.transactions.isSome

/-- `importData` (lines 2525-2583), after the file has been read and
parsed: reject an invalid snapshot without touching the state, otherwise
replace each collection with the imported one, keeping the current settings
or categories when the snapshot lacks them (the JS || fallbacks). The
pre-import backup write and the UI refresh are out of scope. -/
def importData (st : AppState) (data : ImportBlob) : AppState :=
  if validateImportedData data then
    { transactions := data.transactions.getD []
      budgets := data.budgets.getD (JsColl.budObj [])
      settings := data.settings.getD st.settings
      categories := data.categories.getD st.categories }
  else st

/-- `clearAllData()` (lines 2499-2514 and, identically, 837-852): once
confirmed, reset transactions to the empty array, budgets to the empty
object and settings to the defaults; the categories field is not touched.
Without confirmation nothing changes. -/
def clearAllData (st : AppState) (confirmed : Bool) : AppState :=
  if confirmed then
    { st with
      transactions := []
      budgets := JsColl.budObj []
      settings := defaultSettings }
  else st

/-- C8: exporting the full state and re-importing the parsed snapshot into
any state — in particular a freshly reset one — reproduces the exported
transactions, budgets, settings and categories exactly. -/
theorem export_import_round_trip (reset st : AppState) (now version : String) :
    (importData reset (parseExported (exportData st now version))).transactions
        = st.transactions
      ∧ (importData reset (parseExported (exportData st now version))).budgets
        = st.budgets
      ∧ (importData reset (parseExported (exportData st now version))).settings
        = st.settings
      ∧ (importData reset (parseExported (exportData st now version))).categories
        = st.categories :=
  ⟨rfl, rfl, rfl, rfl⟩

/-- C10: the confirmed clear-all-data operation empties the transactions,
resets budgets to the empty object and settings to the documented defaults,
and leaves the category set exactly as it was. -/
theorem clearAllData_spec (st : AppState) :
    clearAllData st true
      = { transactions := []
          budgets := JsColl.budObj []
          settings := defaultSettings
          categories := st.categories } := rfl

/-! The data-entry boundary: `addTransaction` of the main app
(src/unnamed/part_002 lines 1813-1847; the first variant at lines 121-129
performs no validation at all). -/

/-- The result of `parseFloat` on the amount field: NaN for an unparseable
string, otherwise a number. -/
inductive JsNum where
  | nan
  | val (x : Int)
deriving DecidableEq, Repr

/-- JS truthiness of a number: NaN and 0 are falsy, every other number —
negative numbers included — is truthy. -/
def jsNumTruthy : JsNum → Bool
  | JsNum.nan => false
  | JsNum.val x => decide (x ≠ 0)

/-- A transaction record as `addTransaction` builds it. -/
structure Transaction where
  id : String
  ttype : String
  amount : JsNum
  category : String
  description : String
  date : String
deriving DecidableEq, Repr

/-- `addTransaction()` (src/unnamed/part_002 lines 1813-1847): reject the
submission when `!amount || !category || !date` — a falsy amount (NaN or
0), an empty category or an empty date — otherwise push the new record.
Returns the transactions list and whether the submission was stored. -/
def addTransaction (transactions : List Transaction) (ttype : String)
    (amount : JsNum) (category description date : String) (newId : String) :
    List Transaction × Bool :=
  if jsNumTruthy amount = false || category = "" || date = "" then
    (transactions, false)
  else
    (transactions ++ [Transaction.mk newId ttype amount category description date],
      true)

/-- C9: a submission whose amount parses to the negative number -5 passes
the falsy-check guard (a negative number is truthy in JS) and is stored,
so the data-entry boundary does not reject negative amounts: the stored
collection gains a transaction with amount -5, while the guard does reject
a 0 or NaN amount. -/
theorem addTransaction_accepts_negative :
    addTransaction [] "expense" (JsNum.val (-5)) "Food" "" "2024-01-01"
        "1700000000000"
      = ([Transaction.mk "1700000000000" "expense" (JsNum.val (-5)) "Food" ""
          "2024-01-01"], true)
      ∧ addTransaction [] "expense" (JsNum.val 0) "Food" "" "2024-01-01"
        "1700000000000" = ([], false)
      ∧ addTransaction [] "expense" JsNum.nan "Food" "" "2024-01-01"
        "1700000000000" = ([], false) := by
  refine ⟨?_, rfl, rfl⟩
  rfl
